import Mathlib

/-!
Verification development for the chain-interaction and aggregation core of the
BTManager repository (src/core/substrate_client.py, stats.py, registration.py,
transfer.py).

Modelling conventions:
* Python `float` arithmetic is embedded as exact arithmetic on `ℚ`; the claims
  settled here concern which formula the code computes, not IEEE-754 rounding.
* Chain/RPC responses are oracle inputs.  `Rpc α` is the outcome of one awaited
  substrate call: `.ok v` is a returned value, `.exn msg` is a raised exception.
  A façade function returns `Except String β`; `.error msg` means the Python
  function lets the exception propagate to its caller.
* Dynamically typed response payloads are embedded as `PyVal`; the `.value`
  envelope unwrap (`result.value if hasattr(result, "value") else result`) is
  applied before the payload enters the model, so the `Rpc` payload is the
  post-envelope `data`.
* `self._ensure_connected()` (which raises `ConnectionError` when the session
  is absent) is outside the model: every function below is considered in the
  connected state, matching the connection-error exclusion in the claims.
-/

/-! ### Unit and encoding utilities (substrate_client.py lines 14-55) -/

/-- `RAO_PER_TAO = 1_000_000_000` (substrate_client.py line 15). -/
def RAO_PER_TAO : ℕ := 1000000000

/-- `I64F64_DIVISOR = 2**32` (substrate_client.py line 17). -/
def I64F64_DIVISOR : ℕ := 2 ^ 32

/-- `rao_to_tao(rao) = rao / RAO_PER_TAO` (substrate_client.py lines 20-22),
float division embedded as exact division in `ℚ`. -/
def rao_to_tao (rao : ℕ) : ℚ := (rao : ℚ) / (RAO_PER_TAO : ℚ)

/-- Python `int(q)`: truncation toward zero. -/
def pyIntOfRat (q : ℚ) : ℤ := q.num.tdiv (q.den : ℤ)

/-- `tao_to_rao(tao) = int(tao * RAO_PER_TAO)` (substrate_client.py lines 25-27). -/
def tao_to_rao (tao : ℚ) : ℤ := pyIntOfRat (tao * (RAO_PER_TAO : ℚ))

/-- The dynamically typed argument of `decode_price`: a dict (whose `"bits"`
value, default `0`, is an integer on-chain), a bare number, or anything else.
A dict whose `"bits"` value is non-numeric would raise in Python and is outside
the modelled input space. -/
inductive PriceRaw : Type
  | dict (bits : ℤ)
  | num (x : ℚ)
  | other
deriving DecidableEq, Repr

/-- `decode_price` (substrate_client.py lines 30-41): `{'bits': b} ↦ b / 2^32`,
bare number `x ↦ x / 2^32`, anything else `↦ 0.0`. -/
def decode_price : PriceRaw → ℚ
  | .dict bits => (bits : ℚ) / (I64F64_DIVISOR : ℚ)
  | .num x => x / (I64F64_DIVISOR : ℚ)
  | .other => 0

/-! ### Dynamically typed values (`PyVal`)

Shallow embedding of the Python values that flow through the façade:
`None`, bools, ints, strings, tuples, lists, str-keyed dicts, and an opaque
"other object" carrying its `str()` form. -/

inductive PyVal : Type
  | pnone
  | pbool (b : Bool)
  | pint (n : ℤ)
  | pstr (s : String)
  | ptup (xs : List PyVal)
  | plst (xs : List PyVal)
  | pdict (kvs : List (String × PyVal))
  | pother (s : String)

namespace PyVal

/-- Python truthiness of a `PyVal`. -/
def truthy : PyVal → Bool
  | .pnone => false
  | .pbool b => b
  | .pint n => n ≠ 0
  | .pstr s => s ≠ ""
  | .ptup xs => !xs.isEmpty
  | .plst xs => !xs.isEmpty
  | .pdict kvs => !kvs.isEmpty
  | .pother _ => true

/-- First-match association lookup with default: Python `dict.get(k, d)`
(dict keys are unique, so first match is the match). -/
def dictGet (kvs : List (String × PyVal)) (k : String) (d : PyVal) : PyVal :=
  match kvs with
  | [] => d
  | (k', v) :: rest => if k' = k then v else dictGet rest k d

/-- Python `x.get(k, d)`: succeeds on a dict, raises `AttributeError`
otherwise. -/
def pyGet (x : PyVal) (k : String) (d : PyVal) : Except String PyVal :=
  match x with
  | .pdict kvs => .ok (dictGet kvs k d)
  | _ => .error "AttributeError: no attribute get"

/-- Python `int(x)` on the values appearing in chain responses: integers stay,
booleans map to 0/1, everything else raises.  (Numeric strings, which Python
would parse, do not occur in the modelled chain responses.) -/
def pyToInt : PyVal → Except String ℤ
  | .pint n => .ok n
  | .pbool b => .ok (if b then 1 else 0)
  | _ => .error "TypeError: int() argument"

/-- Python `x is None`. -/
def isNone : PyVal → Bool
  | .pnone => true
  | _ => false

def isDict : PyVal → Bool
  | .pdict _ => true
  | _ => false

def isList : PyVal → Bool
  | .plst _ => true
  | _ => false

def isTup : PyVal → Bool
  | .ptup _ => true
  | _ => false

end PyVal

/-- One hex digit, lowercase. -/
def hexDigit (d : ℕ) : Char :=
  if d < 10 then Char.ofNat (48 + d) else Char.ofNat (87 + (d - 10))

/-- Lowercase two-digit hex of one byte, as in Python `bytes(raw).hex()`. -/
def hexByte (b : ℕ) : String :=
  String.mk [hexDigit (b / 16 % 16), hexDigit (b % 16)]

def hexOfBytes (bs : List ℕ) : String :=
  String.join (bs.map hexByte)

/-- Python single-quote character, for `repr` of strings. -/
def pyQuote : String := String.singleton (Char.ofNat 39)

mutual

/-- Python `repr` of the modelled values (used by `str()` on containers). -/
def pyRepr : PyVal → String
  | .pnone => "None"
  | .pbool b => if b then "True" else "False"
  | .pint n => toString n
  | .pstr s => pyQuote ++ s ++ pyQuote
  | .ptup [x] => "(" ++ pyRepr x ++ ",)"
  | .ptup xs => "(" ++ String.intercalate ", " (pyReprList xs) ++ ")"
  | .plst xs => "[" ++ String.intercalate ", " (pyReprList xs) ++ "]"
  | .pdict kvs => "\x7b" ++ String.intercalate ", " (pyReprKVs kvs) ++ "\x7d"
  | .pother s => s

def pyReprList : List PyVal → List String
  | [] => []
  | x :: rest => pyRepr x :: pyReprList rest

def pyReprKVs : List (String × PyVal) → List String
  | [] => []
  | (k, v) :: rest => (pyQuote ++ k ++ pyQuote ++ ": " ++ pyRepr v) :: pyReprKVs rest

end

/-- Python `str(x)`: strings pass through, containers and the rest use their
repr / str form. -/
def pyStr (x : PyVal) : String :=
  match x with
  | .pstr s => s
  | v => pyRepr v

/-- The 32 bytes of a tuple/list, when every element is an int in `[0, 256)`.
(In Python, `bytes(raw)` on a length-32 tuple with a non-byte element raises;
such values do not occur among the chain's account-id responses and are outside
the modelled input space, where the model falls back to the str form.) -/
def bytesOf : List PyVal → Option (List ℕ)
  | [] => some []
  | .pint n :: rest =>
      if 0 ≤ n ∧ n < 256 then
        match bytesOf rest with
        | some bs => some (n.toNat :: bs)
        | none => none
      else none
  | _ :: _ => none

/-- The single unwrap step of `decode_ss58` (stats.py lines 48-49):
`if isinstance(raw, tuple) and len(raw) == 1 and isinstance(raw[0], tuple):
raw = raw[0]`.  Applied exactly once, not iterated. -/
def unwrapOnce (raw : PyVal) : PyVal :=
  match raw with
  | .ptup [x] => if x.isTup then x else raw
  | _ => raw

/-- The elements of a tuple or list (`isinstance(raw, (tuple, list))`),
`none` for any other value. -/
def wireBytes : PyVal → Option (List PyVal)
  | .ptup xs => some xs
  | .plst xs => some xs
  | _ => none

/-- `decode_ss58` (stats.py lines 44-60).  `enc` is the ss58 encoder made
available by the environment (`scalecodec` or `substrateinterface`); `none`
models both imports failing, in which case the `"0x" + hex` fallback is used
(stats.py line 59).  Strings pass through; a single-element tuple holding a
tuple is unwrapped once; a 32-element tuple/list of bytes is encoded;
everything else returns its `str()` form. -/
def decode_ss58 (enc : Option (List ℕ → String)) (raw : PyVal) : String :=
  match raw with
  | .pstr s => s
  | _ =>
    let raw1 := unwrapOnce raw
    match wireBytes raw1 with
    | some xs =>
        if xs.length = 32 then
          match bytesOf xs with
          | some bs =>
              match enc with
              | some e => e bs
              | none => "0x" ++ hexOfBytes bs
          | none => pyStr raw1
        else pyStr raw1
    | none => pyStr raw1

/-! ### RPC oracle -/

/-- Outcome of one awaited substrate call: a returned value (post-envelope) or
a raised exception carrying its message. -/
inductive Rpc (α : Type) : Type
  | ok (v : α)
  | exn (msg : String)
deriving DecidableEq, Repr

/-! ### Query façade (substrate_client.py)

Each method takes the outcome(s) of the substrate call(s) it performs and
returns `Except String β`: `.error` models the Python function letting an
exception escape to its caller, `.ok` a normal return. -/

/-- `get_balance` (substrate_client.py lines 133-147).  The substrate query has
no `try/except`: an RPC exception propagates.  `result is None` gives `0`; a
dict result gives `data.get("data", {}).get("free", 0)` (the second `.get`
raises when the `"data"` field is not a dict); a non-dict result gives `0`. -/
def get_balance (r : Rpc PyVal) : Except String PyVal :=
  match r with
  | .exn m => .error m
  | .ok result =>
    if result.isNone then .ok (.pint 0)
    else if result.isDict then do
      let d1 ← result.pyGet "data" (.pdict [])
      d1.pyGet "free" (.pint 0)
    else .ok (.pint 0)

/-- `get_stake_info_for_coldkey` (substrate_client.py lines 165-182):
`try`-wrapped runtime call, list payload passes through, anything else
(including a raised exception) gives `[]`. -/
def get_stake_info_for_coldkey (r : Rpc PyVal) : Except String (List PyVal) :=
  match r with
  | .exn _ => .ok []
  | .ok data =>
    match data with
    | .plst xs => .ok xs
    | _ => .ok []

/-- The element-collection inside `get_all_subnet_netuids`: keep `int(netuid)`
for every truthy `added` flag; a failing `int()` raises (caught by the
enclosing `try`). -/
def collectNetuids : List (PyVal × PyVal) → Except String (List ℤ)
  | [] => .ok []
  | (netuid, added) :: rest =>
      if added.truthy then do
        let u ← netuid.pyToInt
        let r ← collectNetuids rest
        .ok (u :: r)
      else collectNetuids rest

/-- Ascending insertion sort on `ℤ`, Python `sorted`. -/
def sortInts (l : List ℤ) : List ℤ :=
  l.insertionSort (· ≤ ·)

/-- `get_all_subnet_netuids` (substrate_client.py lines 207-224): iterate the
`NetworksAdded` storage map, keep truthy entries, sort ascending; any exception
gives `[]`. -/
def get_all_subnet_netuids (r : Rpc (List (PyVal × PyVal))) : Except String (List ℤ) :=
  match r with
  | .exn _ => .ok []
  | .ok pairs =>
    match collectNetuids pairs with
    | .error _ => .ok []
    | .ok netuids => .ok (sortInts netuids)

/-- `get_subnet_dynamic_info` (substrate_client.py lines 226-243): dict payload
passes through as `some`, anything else (including exceptions) gives `none`. -/
def get_subnet_dynamic_info (r : Rpc PyVal) : Except String (Option PyVal) :=
  match r with
  | .exn _ => .ok none
  | .ok data =>
    match data with
    | .pdict kvs => .ok (some (.pdict kvs))
    | _ => .ok none

/-- `get_all_dynamic_info` (substrate_client.py lines 245-258). -/
def get_all_dynamic_info (r : Rpc PyVal) : Except String (List PyVal) :=
  match r with
  | .exn _ => .ok []
  | .ok data =>
    match data with
    | .plst xs => .ok xs
    | _ => .ok []

/-- `get_subnet_hyperparams` (substrate_client.py lines 260-273). -/
def get_subnet_hyperparams (r : Rpc PyVal) : Except String (Option PyVal) :=
  match r with
  | .exn _ => .ok none
  | .ok data =>
    match data with
    | .pdict kvs => .ok (some (.pdict kvs))
    | _ => .ok none

/-- The fallback branch of `get_burn_cost` (substrate_client.py lines 289-302):
`get_subnet_info_v2`, extracting `int(data.get("burn", 0))` from a dict; any
failure (exception, non-dict, failing `int()`) gives `0`. -/
def burnFallback (r2 : Rpc PyVal) : ℤ :=
  match r2 with
  | .exn _ => 0
  | .ok data =>
    match data with
    | .pdict kvs =>
        match (PyVal.dictGet kvs "burn" (.pint 0)).pyToInt with
        | .ok n => n
        | .error _ => 0
    | _ => 0

/-- `get_burn_cost` (substrate_client.py lines 275-302): primary direct `Burn`
storage read (`int(val) if val else 0`, `None` result gives `0`); on any
exception in the primary path, the `get_subnet_info_v2` fallback; `0` if both
fail. -/
def get_burn_cost (r1 : Rpc (Option PyVal)) (r2 : Rpc PyVal) : Except String ℤ :=
  match r1 with
  | .ok none => .ok 0
  | .ok (some val) =>
      if val.truthy then
        match val.pyToInt with
        | .ok n => .ok n
        | .error _ => .ok (burnFallback r2)
      else .ok 0
  | .exn _ => .ok (burnFallback r2)

/-- `get_neurons_lite` (substrate_client.py lines 350-363). -/
def get_neurons_lite (r : Rpc PyVal) : Except String (List PyVal) :=
  match r with
  | .exn _ => .ok []
  | .ok data =>
    match data with
    | .plst xs => .ok xs
    | _ => .ok []

/-- `get_uid_for_hotkey_on_subnet` (substrate_client.py lines 365-379): `Uids`
storage read; non-`None` value gives `int(val)`, `None`, a failing `int()` or
any exception gives `None`. -/
def get_uid_for_hotkey_on_subnet (r : Rpc PyVal) : Except String (Option ℤ) :=
  match r with
  | .exn _ => .ok none
  | .ok val =>
    if val.isNone then .ok none
    else
      match val.pyToInt with
      | .ok n => .ok (some n)
      | .error _ => .ok none

/-- `get_current_block` (substrate_client.py lines 424-428): `get_chain_head`
then `get_block_number`, with no `try/except` — an exception in either call
propagates. -/
def get_current_block (rHead : Rpc String) (rNum : Rpc ℤ) : Except String ℤ :=
  match rHead with
  | .exn m => .error m
  | .ok _head =>
    match rNum with
    | .exn m => .error m
    | .ok n => .ok n

/-! ### Transaction submission protocol (substrate_client.py lines 434-515) -/

/-- The chain's mortality-era scan of a burn-registration receipt needs the
triggered events; see `BEvent` further below. -/
inductive BEvent : Type
  | dictEv (event_id : String) (uid_val : Option ℤ) (one_val : Option ℤ)
  | objEv (event_id : String) (uid : Option ℤ)
  | otherEv
  | raiseEv
deriving DecidableEq, Repr

/-- An extrinsic receipt, with the outcomes of awaiting its properties.
`triggered_events = .exn _` models `await receipt.triggered_events` raising;
a `raiseEv` inside the list models a raise while scanning the events. -/
structure Receipt : Type where
  is_success : Bool
  error_message : Option String
  triggered_events : Rpc (List BEvent)
deriving DecidableEq, Repr

/-- The submission oracle: outcome of
`compose_call` + `create_signed_extrinsic` + `submit_extrinsic` for a given
(module, function, params) triple.  `.exn` is a raise anywhere in that
pipeline or while inspecting the returned receipt's awaited properties. -/
def SubmitOracle : Type := String → String → List (String × PyVal) → Rpc Receipt

/-- `compose_and_submit` (substrate_client.py lines 434-482): composes, signs
and submits; no `try/except`, so an exception propagates to the caller. -/
def compose_and_submit (submit : SubmitOracle) (call_module call_function : String)
    (call_params : List (String × PyVal)) : Except String Receipt :=
  match submit call_module call_function call_params with
  | .exn m => .error m
  | .ok receipt => .ok receipt

/-- `str(error) if error else "Unknown error"` (substrate_client.py line 511,
registration.py line 161): the `str()` form of the decoded error, with falsy
values (`None`, empty) replaced by `"Unknown error"`. -/
def errorStr (error : Option String) : String :=
  match error with
  | some e => if e ≠ "" then e else "Unknown error"
  | none => "Unknown error"

/-- `compose_and_submit_checked` (substrate_client.py lines 484-515): wraps
`compose_and_submit` in `try/except`; success gives `(True, None)`, a failed
receipt gives `(False, decoded-error-or-"Unknown error")`, an exception gives
`(False, str(e))`.  Total: it never raises. -/
def compose_and_submit_checked (submit : SubmitOracle) (call_module call_function : String)
    (call_params : List (String × PyVal)) : Bool × Option String :=
  match compose_and_submit submit call_module call_function call_params with
  | .error m => (false, some m)
  | .ok receipt =>
    if receipt.is_success then (true, none)
    else (false, some (errorStr receipt.error_message))

/-! ### Transfer (transfer.py) -/

/-- `transfer_tao_keep_alive` (transfer.py lines 48-72): converts TAO to RAO
and submits `Balances.transfer_keep_alive`, returning the checked protocol's
result pair unchanged. -/
def transfer_tao_keep_alive (submit : SubmitOracle) (dest_ss58 : String)
    (tao_amount : ℚ) : Bool × Option String :=
  let amount_rao := tao_to_rao tao_amount
  compose_and_submit_checked submit "Balances" "transfer_keep_alive"
    [("dest", .pstr dest_ss58), ("value", .pint amount_rao)]

/-- `transfer_tao` (transfer.py lines 12-45): the `transfer_allow_death`
variant (not used by the menus, which call the keep-alive variant). -/
def transfer_tao (submit : SubmitOracle) (dest_ss58 : String)
    (tao_amount : ℚ) : Bool × Option String :=
  let amount_rao := tao_to_rao tao_amount
  compose_and_submit_checked submit "Balances" "transfer_allow_death"
    [("dest", .pstr dest_ss58), ("value", .pint amount_rao)]

/-! ### Registration (registration.py) -/

/-- `check_registration_status` (registration.py lines 54-76): `Uids` storage
read inside `try/except`; a non-`None` result/value gives `int(val)`, a `None`
result, a failing `int()` or any exception gives `None`.  Never raises. -/
def check_registration_status (r : Rpc (Option PyVal)) : Option ℤ :=
  match r with
  | .exn _ => none
  | .ok none => none
  | .ok (some val) =>
    if val.isNone then none
    else
      match val.pyToInt with
      | .ok n => some n
      | .error _ => none

/-- One iteration of the `NeuronRegistered` event scan in `burn_register`
(registration.py lines 141-149).  `uid` is the loop variable's value so far.
`dictEv`: a dict event; `uid = attrs.get("uid") or attrs.get(1)` — the `or`
takes `attrs.get(1)` when `attrs.get("uid")` is falsy (missing or `0`).
`objEv`: an object with an `event_id` attribute; `raiseEv` aborts the scan
(the exception is caught by the enclosing `try` and the value so far kept). -/
def scanEvents : List BEvent → Option ℤ → Option ℤ
  | [], uid => uid
  | .raiseEv :: _, uid => uid
  | .dictEv event_id uid_val one_val :: rest, uid =>
      if event_id = "NeuronRegistered" then
        scanEvents rest (match uid_val with
          | some u => if u ≠ 0 then some u else one_val
          | none => one_val)
      else scanEvents rest uid
  | .objEv event_id u :: rest, uid =>
      if event_id = "NeuronRegistered" then scanEvents rest u
      else scanEvents rest uid
  | .otherEv :: rest, uid => scanEvents rest uid

/-- Which message `burn_register` returns, kept structural instead of carrying
Python's f-string formatting. -/
inductive BurnMsg : Type
  | insufficient (balance burn : ℤ)
  | alreadyRegistered (uid : ℤ)
  | chainError (s : String)
  | exnMsg (s : String)
deriving DecidableEq, Repr

/-- Python `balance < burn_rao` where `balance` is whatever `get_balance`
returned: comparing a non-number raises `TypeError`. -/
def pyLtInt (x : PyVal) (n : ℤ) : Except String Bool :=
  match x with
  | .pint m => .ok (m < n)
  | .pbool b => .ok ((if b then (1 : ℤ) else 0) < n)
  | _ => .error "TypeError: unsupported comparison"

/-- The oracle inputs consumed by one `burn_register` call, in program order:
the two `get_burn_cost` responses, the `get_balance` response, the
`check_registration_status` response, the submission outcome, and the fallback
`check_registration_status` response used after a successful registration. -/
structure BurnOracle : Type where
  burnR1 : Rpc (Option PyVal)
  burnR2 : Rpc PyVal
  balanceR : Rpc PyVal
  uidR : Rpc (Option PyVal)
  submitR : Rpc Receipt
  postUidR : Rpc (Option PyVal)

/-- `burn_register` (registration.py lines 79-167).  Returns the
`(success, message, uid)` triple paired with the number of extrinsic
submissions attempted (`compose_and_submit` invocations); `.error` models an
exception escaping `burn_register` itself (possible: `get_burn_cost` and
`get_balance` run outside any `try`).  Steps, as in the source:
burn cost, optional balance pre-check, already-registered short-circuit,
`burned_register` submission, event scan with UID re-query fallback. -/
def burn_register (o : BurnOracle) (check_balance : Bool) :
    Except String ((Bool × Option BurnMsg × Option ℤ) × ℕ) := do
  let burn_rao ← get_burn_cost o.burnR1 o.burnR2
  if check_balance then
    let balance ← get_balance o.balanceR
    let lt ← pyLtInt balance burn_rao
    if lt then
      let balInt ← balance.pyToInt
      return ((false, some (.insufficient balInt burn_rao), none), 0)
  match check_registration_status o.uidR with
  | some existing_uid =>
      return ((true, some (.alreadyRegistered existing_uid), some existing_uid), 0)
  | none =>
    match o.submitR with
    | .exn e => return ((false, some (.exnMsg e), none), 1)
    | .ok receipt =>
      if receipt.is_success then
        let uid0 : Option ℤ :=
          match receipt.triggered_events with
          | .exn _ => none
          | .ok evs => scanEvents evs none
        let uid : Option ℤ :=
          match uid0 with
          | some u => some u
          | none => check_registration_status o.postUidR
        return ((true, none, uid), 1)
      else
        return ((false, some (.chainError (errorStr receipt.error_message)), none), 1)

/-! ### Stats aggregation engine (stats.py)

`get_wallet_stats` consumes the outcomes of its four gathered tasks
(each `none` when the task raised, per the `try/except` at stats.py
lines 138-144) and produces a `WalletSnapshot`.  Chain records enter the model
as typed structures: the source skips non-dict entries and reads the fields
below with `.get` defaults, so a record models a dict with those fields (the
`.get` default applied when the key is absent). -/

/-- One element of `get_stake_info_for_coldkey`'s list, as read by
`get_wallet_stats` (stats.py lines 168-174 and 208): `netuid` (default `0`),
`hotkey` (default `""`, decoded via `decode_ss58`), `stake` (default `0`),
`is_registered` (default `False`). -/
structure StakeEntry : Type where
  netuid : ℕ
  hotkey : PyVal
  stake : ℕ
  is_registered : Bool

/-- One registration record of the neuron cache, as read by `get_wallet_stats`
(stats.py lines 101-111 build it with these fields; `trust`, `dividends`,
`active`, `rank` and `validator_trust` are stored but never read by
`get_wallet_stats` and are omitted). -/
structure NeuronData : Type where
  netuid : ℕ
  uid : ℕ
  emission : ℕ
  incentive : ℕ
deriving DecidableEq, Repr

/-- One element of `get_all_dynamic_info`'s list, as read by
`get_wallet_stats` (stats.py lines 150-160): `netuid` (default `0`),
`moving_price` (default `0`, decoded by `decode_price`), `tempo` (default
`360`), `subnet_identity` and `subnet_name`.  `subnet_identity` is `some v`
for a truthy dict (`v` its `"subnet_name"` value when present); names are
strings (`decode_bytes` is the identity on strings), `""` standing for a
missing or falsy raw name. -/
structure DynInfo : Type where
  netuid : ℕ
  moving_price : PriceRaw
  tempo : ℕ
  subnet_identity : Option (Option String)
  subnet_name : String

/-- One row of the snapshot's `subnets` list (stats.py lines 214-225 and
241-252). -/
structure SubnetRow : Type where
  netuid : ℕ
  subnet_name : String
  hotkey : String
  uid : Option ℕ
  alpha_stake : ℚ
  tao_value : ℚ
  emission : ℚ
  incentive : ℕ
  is_registered : Bool
  moving_price : ℚ
deriving DecidableEq, Repr

/-- The snapshot dict returned by `get_wallet_stats` (stats.py lines 262-271). -/
structure WalletSnapshot : Type where
  address : String
  free_balance_tao : ℚ
  total_staked_tao : ℚ
  total_emission_tao_per_block : ℚ
  total_value_tao : ℚ
  total_value_usd : Option ℚ
  tao_price_usd : Option ℚ
  subnets : List SubnetRow
deriving DecidableEq, Repr

/-- Python dict assignment `m[k] = v`: replace the binding if the key exists,
append it otherwise. -/
def alSet {α : Type} (m : List (ℕ × α)) (k : ℕ) (v : α) : List (ℕ × α) :=
  match m with
  | [] => [(k, v)]
  | (k', v') :: rest => if k' = k then (k, v) :: rest else (k', v') :: alSet rest k v

/-- Python `m.get(k, d)` on a `ℕ`-keyed dict. -/
def alGet {α : Type} (m : List (ℕ × α)) (k : ℕ) (d : α) : α :=
  match m with
  | [] => d
  | (k', v) :: rest => if k' = k then v else alGet rest k d

/-- Python `m.get(k, d)` on a `String`-keyed dict (the neuron cache). -/
def alGetS {α : Type} (m : List (String × α)) (k : String) (d : α) : α :=
  match m with
  | [] => d
  | (k', v) :: rest => if k' = k then v else alGetS rest k d

/-- The per-netuid lookup tables built from the dynamic-info list
(stats.py lines 146-160). -/
structure StatsMaps : Type where
  price_map : List (ℕ × ℚ)
  tempo_map : List (ℕ × ℕ)
  name_map : List (ℕ × String)

/-- One iteration of the map-building loop (stats.py lines 150-160): identity
name takes precedence (`identity.get("subnet_name", info.get("subnet_name"))`
when `subnet_identity` is a truthy dict), a falsy name falls back to
`"SN{netuid}"`. -/
def mapsStep (m : StatsMaps) (info : DynInfo) : StatsMaps :=
  let netuid := info.netuid
  let name_raw : String :=
    match info.subnet_identity with
    | some idv =>
        match idv with
        | some s => s
        | none => info.subnet_name
    | none => info.subnet_name
  { price_map := alSet m.price_map netuid (decode_price info.moving_price)
    tempo_map := alSet m.tempo_map netuid info.tempo
    name_map := alSet m.name_map netuid
      (if name_raw ≠ "" then name_raw else "SN" ++ toString netuid) }

/-- The lookup tables of one `get_wallet_stats` run: empty when the dynamic
task raised or returned a falsy (empty) list (`if results.get("dynamic"):`,
stats.py line 149). -/
def stats_maps (dynamicRes : Option (List DynInfo)) : StatsMaps :=
  match dynamicRes with
  | none => ⟨[], [], []⟩
  | some dyn => if dyn.isEmpty then ⟨[], [], []⟩ else dyn.foldl mapsStep ⟨[], [], []⟩

/-- The per-wallet context shared by both row-building loops: the ss58 encoder
environment, the neuron cache and the lookup tables. -/
structure LoopCtx : Type where
  enc : Option (List ℕ → String)
  cache : List (String × List NeuronData)
  maps : StatsMaps

/-- The neuron-cache scan of stats.py lines 189-194: the first cached record
of this hotkey whose `netuid` matches (`break` on first hit). -/
def find_neuron : List NeuronData → ℕ → Option NeuronData
  | [], _ => none
  | nd :: rest, netuid => if nd.netuid = netuid then some nd else find_neuron rest netuid

/-- `tao_value` of a stake entry (stats.py lines 179-184): root subnet values
1:1, otherwise `alpha_tao * moving_price` when the price is positive,
otherwise `0.0`. -/
def tao_value_calc (netuid : ℕ) (alpha_tao moving_price : ℚ) : ℚ :=
  if netuid = 0 then alpha_tao
  else if 0 < moving_price then alpha_tao * moving_price
  else 0

/-- Per-block TAO emission of a matched neuron record (stats.py lines 198-200,
repeated verbatim at lines 237-239): emission is alpha-RAO per tempo;
`emission_tao_per_tempo = rao_to_tao(emission) * moving_price` when the price
is positive else `0.0`; divided by `tempo` when `tempo > 0` else `0.0`. -/
def emission_calc (emission_rao : ℕ) (moving_price : ℚ) (tempo : ℕ) : ℚ :=
  let emission_alpha_per_tempo := rao_to_tao emission_rao
  let emission_tao_per_tempo :=
    if 0 < moving_price then emission_alpha_per_tempo * moving_price else 0
  if 0 < tempo then emission_tao_per_tempo / (tempo : ℚ) else 0

/-- The decoded hotkey of a stake entry (stats.py line 173). -/
def entry_hotkey (ctx : LoopCtx) (e : StakeEntry) : String :=
  decode_ss58 ctx.enc e.hotkey

/-- The `(hotkey, netuid)` pair added to `seen_pairs` (stats.py line 211). -/
def entry_pair (ctx : LoopCtx) (e : StakeEntry) : String × ℕ :=
  (entry_hotkey ctx e, e.netuid)

/-- `alpha_tao` of a stake entry (stats.py line 175). -/
def entry_alpha (e : StakeEntry) : ℚ := rao_to_tao e.stake

/-- `moving_price` of a stake entry's subnet (stats.py line 176). -/
def entry_mp (ctx : LoopCtx) (e : StakeEntry) : ℚ :=
  alGet ctx.maps.price_map e.netuid 0

/-- `tempo` of a stake entry's subnet, default `360` (stats.py line 177). -/
def entry_tempo (ctx : LoopCtx) (e : StakeEntry) : ℕ :=
  alGet ctx.maps.tempo_map e.netuid 360

/-- `tao_value` of a stake entry (stats.py lines 179-184). -/
def entry_tao_value (ctx : LoopCtx) (e : StakeEntry) : ℚ :=
  tao_value_calc e.netuid (entry_alpha e) (entry_mp ctx e)

/-- The cache hit for a stake entry (stats.py lines 189-194: only looked up
when a truthy cache was passed). -/
def entry_neuron (ctx : LoopCtx) (e : StakeEntry) : Option NeuronData :=
  if ctx.cache.isEmpty then none
  else find_neuron (alGetS ctx.cache (entry_hotkey ctx e) []) e.netuid

/-- `emission_tao_per_block` of a stake entry (stats.py lines 196-205): the
matched record's converted emission, `0.0` without a cache hit. -/
def entry_emission (ctx : LoopCtx) (e : StakeEntry) : ℚ :=
  match entry_neuron ctx e with
  | some nd => emission_calc nd.emission (entry_mp ctx e) (entry_tempo ctx e)
  | none => 0

/-- `uid` of a stake entry's row (stats.py lines 201, 206). -/
def entry_uid (ctx : LoopCtx) (e : StakeEntry) : Option ℕ :=
  match entry_neuron ctx e with
  | some nd => some nd.uid
  | none => none

/-- `incentive` of a stake entry's row (stats.py lines 202, 207). -/
def entry_incentive (ctx : LoopCtx) (e : StakeEntry) : ℕ :=
  match entry_neuron ctx e with
  | some nd => nd.incentive
  | none => 0

/-- `is_registered` of a stake entry's row (stats.py lines 203, 208): `True`
on a cache hit, otherwise the entry's own flag. -/
def entry_is_registered (ctx : LoopCtx) (e : StakeEntry) : Bool :=
  match entry_neuron ctx e with
  | some _ => true
  | none => e.is_registered

/-- The append condition `alpha_stake_rao > 0 or is_registered`
(stats.py line 213). -/
def entry_pass (ctx : LoopCtx) (e : StakeEntry) : Bool :=
  decide (0 < e.stake) || entry_is_registered ctx e

/-- The row appended for a stake entry (stats.py lines 214-225). -/
def entry_row (ctx : LoopCtx) (e : StakeEntry) : SubnetRow :=
  { netuid := e.netuid
    subnet_name := alGet ctx.maps.name_map e.netuid ("SN" ++ toString e.netuid)
    hotkey := entry_hotkey ctx e
    uid := entry_uid ctx e
    alpha_stake := entry_alpha e
    tao_value := entry_tao_value ctx e
    emission := entry_emission ctx e
    incentive := entry_incentive ctx e
    is_registered := entry_is_registered ctx e
    moving_price := entry_mp ctx e }

/-- The state threaded through both row loops: the rows so far, the two
accumulators and `seen_pairs` (stats.py lines 162-165; `seen_pairs` is a set,
modelled as the insertion-ordered list of added pairs). -/
structure LoopState : Type where
  subnets : List SubnetRow
  total_staked : ℚ
  total_emission : ℚ
  seen : List (String × ℕ)

/-- One iteration of the stake loop (stats.py lines 168-225): accumulate the
valuation and emission, record the pair, and append the row when the entry has
positive stake or counts as registered. -/
def stake_step (ctx : LoopCtx) (st : LoopState) (e : StakeEntry) : LoopState :=
  { subnets := st.subnets ++ (if entry_pass ctx e then [entry_row ctx e] else [])
    total_staked := st.total_staked + entry_tao_value ctx e
    total_emission := st.total_emission + entry_emission ctx e
    seen := st.seen ++ [entry_pair ctx e] }

/-- The synthetic zero-stake row of a cached registration
(stats.py lines 241-252). -/
def synth_row (ctx : LoopCtx) (hk : String) (nd : NeuronData) : SubnetRow :=
  { netuid := nd.netuid
    subnet_name := alGet ctx.maps.name_map nd.netuid ("SN" ++ toString nd.netuid)
    hotkey := hk
    uid := some nd.uid
    alpha_stake := 0
    tao_value := 0
    emission := emission_calc nd.emission (alGet ctx.maps.price_map nd.netuid 0)
      (alGet ctx.maps.tempo_map nd.netuid 360)
    incentive := nd.incentive
    is_registered := true
    moving_price := alGet ctx.maps.price_map nd.netuid 0 }

/-- One iteration of the inner synthetic-row loop (stats.py lines 230-252):
skip pairs already seen, otherwise record the pair, accumulate the emission
and append the zero-stake row. -/
def synth_step (ctx : LoopCtx) (hk : String) (st : LoopState) (nd : NeuronData) : LoopState :=
  if (hk, nd.netuid) ∈ st.seen then st
  else
    { subnets := st.subnets ++ [synth_row ctx hk nd]
      total_staked := st.total_staked
      total_emission := st.total_emission
        + emission_calc nd.emission (alGet ctx.maps.price_map nd.netuid 0)
            (alGet ctx.maps.tempo_map nd.netuid 360)
      seen := st.seen ++ [(hk, nd.netuid)] }

/-- The inner loop over one hotkey's cached registrations (stats.py line 230). -/
def synth_hotkey (ctx : LoopCtx) (st : LoopState) (hk : String) : LoopState :=
  (alGetS ctx.cache hk []).foldl (synth_step ctx hk) st

/-- The outer loop over the wallet's known hotkeys (stats.py line 229). -/
def synth_loop (ctx : LoopCtx) (hks : List String) (st : LoopState) : LoopState :=
  hks.foldl (synth_hotkey ctx) st

/-- The ascending-`netuid` order of the final `subnets.sort(key=...)`
(stats.py line 254). -/
def rowLE (a b : SubnetRow) : Prop := a.netuid ≤ b.netuid

instance : DecidableRel rowLE := fun a b => Nat.decLe a.netuid b.netuid

instance : IsTotal SubnetRow rowLE := ⟨fun a b => Nat.le_total a.netuid b.netuid⟩

instance : IsTrans SubnetRow rowLE := ⟨fun _ _ _ hab hbc => Nat.le_trans hab hbc⟩

/-- `subnets.sort(key=lambda x: x["netuid"])` (stats.py line 254). -/
def sortRows (l : List SubnetRow) : List SubnetRow := l.insertionSort rowLE

/-- `fetch_tao_price` (stats.py lines 15-41): Binance primary (descends to the
fallback unless it returned a positive price), CoinGecko fallback returning
whatever the `"usd"` field holds (possibly `None`); `none` for a
raised/non-200 provider. -/
def fetch_tao_price (binance : Option ℚ) (coingecko : Option (Option ℚ)) : Option ℚ :=
  match binance with
  | some price => if 0 < price then some price else coingecko.getD none
  | none => coingecko.getD none

/-- `get_wallet_stats` (stats.py lines 116-271).  `balanceRes`, `stakesRes`,
`dynamicRes`, `priceRes` are the outcomes of the four gathered tasks (`none`
when the task raised; `priceRes` also `none` when the fetch returned `None`).
The `"price"` task only exists when `include_usd` is set (lines 135-136). -/
def get_wallet_stats (enc : Option (List ℕ → String)) (coldkey_ss58 : String)
    (include_usd : Bool) (hotkey_ss58_list : List String)
    (neuron_cache : List (String × List NeuronData))
    (balanceRes : Option ℕ) (stakesRes : Option (List StakeEntry))
    (dynamicRes : Option (List DynInfo)) (priceRes : Option ℚ) : WalletSnapshot :=
  let maps := stats_maps dynamicRes
  let ctx : LoopCtx := ⟨enc, neuron_cache, maps⟩
  -- `stakes = results.get("stakes", []) or []` (line 167)
  let stakes := stakesRes.getD []
  let st1 := stakes.foldl (stake_step ctx) ⟨[], 0, 0, []⟩
  -- `if neuron_cache and hotkey_ss58_list:` (line 228)
  let st2 :=
    if !neuron_cache.isEmpty && !hotkey_ss58_list.isEmpty then
      synth_loop ctx hotkey_ss58_list st1
    else st1
  let subnets := sortRows st2.subnets
  -- `free_balance_tao = rao_to_tao(results.get("balance", 0) or 0)` (line 256)
  let free_balance_tao := rao_to_tao (balanceRes.getD 0)
  let total_value_tao := free_balance_tao + st2.total_staked
  -- `tao_price = results.get("price")` (line 259)
  let tao_price := if include_usd then priceRes else none
  -- `total_value_usd = total_value_tao * tao_price if tao_price else None` (line 260)
  let total_value_usd :=
    match tao_price with
    | some p => if p ≠ 0 then some (total_value_tao * p) else none
    | none => none
  { address := coldkey_ss58
    free_balance_tao := free_balance_tao
    total_staked_tao := st2.total_staked
    total_emission_tao_per_block := st2.total_emission
    total_value_tao := total_value_tao
    total_value_usd := total_value_usd
    tao_price_usd := tao_price
    subnets := subnets }

/-! ## Claims

Each claim of the specification is settled by one theorem below (plus, where
the claim as stated fails on the code, a concrete counterexample theorem). -/

/-! ### C1 — Query façade degradation -/

/-- C1 (counterexample to the claim as stated): `getBalance` and
`getCurrentBlock` have no exception handler — an RPC failure propagates to the
caller instead of yielding the documented safe default. -/
theorem get_balance_propagates_rpc_failure :
    get_balance (.exn "RPC failure") = .error "RPC failure" ∧
    get_current_block (.exn "RPC failure") (.ok 0) = .error "RPC failure" :=
  ⟨rfl, rfl⟩

/-- C1 (amended): every Query Façade read operation except `getBalance` and
`getCurrentBlock` returns its documented safe default (`0`, empty list or
`None`) on an RPC exception and never lets any exception propagate, whatever
the response; `getBalance` returns `0` for an absent (`None`) account record
but, like `getCurrentBlock`, propagates a raised RPC exception. -/
theorem facade_safe_defaults_except_balance_and_block :
    (∀ msg, get_stake_info_for_coldkey (.exn msg) = .ok []) ∧
    (∀ msg, get_all_dynamic_info (.exn msg) = .ok []) ∧
    (∀ msg, get_subnet_dynamic_info (.exn msg) = .ok none) ∧
    (∀ msg, get_subnet_hyperparams (.exn msg) = .ok none) ∧
    (∀ msg, get_neurons_lite (.exn msg) = .ok []) ∧
    (∀ msg, get_all_subnet_netuids (.exn msg) = .ok []) ∧
    (∀ msg, get_uid_for_hotkey_on_subnet (.exn msg) = .ok none) ∧
    (∀ m1 m2, get_burn_cost (.exn m1) (.exn m2) = .ok 0) ∧
    (∀ r, ∃ v, get_stake_info_for_coldkey r = .ok v) ∧
    (∀ r, ∃ v, get_all_dynamic_info r = .ok v) ∧
    (∀ r, ∃ v, get_subnet_dynamic_info r = .ok v) ∧
    (∀ r, ∃ v, get_subnet_hyperparams r = .ok v) ∧
    (∀ r, ∃ v, get_neurons_lite r = .ok v) ∧
    (∀ r, ∃ v, get_all_subnet_netuids r = .ok v) ∧
    (∀ r, ∃ v, get_uid_for_hotkey_on_subnet r = .ok v) ∧
    (∀ r1 r2, ∃ v, get_burn_cost r1 r2 = .ok v) ∧
    (get_balance (.ok .pnone) = .ok (.pint 0)) ∧
    (∀ msg, get_balance (.exn msg) = .error msg) ∧
    (∀ msg r2, get_current_block (.exn msg) r2 = .error msg) ∧
    (∀ h msg, get_current_block (.ok h) (.exn msg) = .error msg) := by
  refine ⟨fun _ => rfl, fun _ => rfl, fun _ => rfl, fun _ => rfl, fun _ => rfl,
    fun _ => rfl, fun _ => rfl, fun _ _ => rfl, ?_, ?_, ?_, ?_, ?_, ?_, ?_, ?_,
    rfl, fun _ => rfl, fun _ _ => rfl, fun _ _ => rfl⟩
  · rintro (data | m)
    · cases data <;> exact ⟨_, rfl⟩
    · exact ⟨_, rfl⟩
  · rintro (data | m)
    · cases data <;> exact ⟨_, rfl⟩
    · exact ⟨_, rfl⟩
  · rintro (data | m)
    · cases data <;> exact ⟨_, rfl⟩
    · exact ⟨_, rfl⟩
  · rintro (data | m)
    · cases data <;> exact ⟨_, rfl⟩
    · exact ⟨_, rfl⟩
  · rintro (data | m)
    · cases data <;> exact ⟨_, rfl⟩
    · exact ⟨_, rfl⟩
  · rintro (pairs | m)
    · cases h : collectNetuids pairs with
      | error e => exact ⟨[], by simp [get_all_subnet_netuids, h]⟩
      | ok l => exact ⟨sortInts l, by simp [get_all_subnet_netuids, h]⟩
    · exact ⟨_, rfl⟩
  · rintro (val | m)
    · cases hn : val.isNone
      · cases hi : val.pyToInt with
        | error e => exact ⟨none, by simp [get_uid_for_hotkey_on_subnet, hn, hi]⟩
        | ok n => exact ⟨some n, by simp [get_uid_for_hotkey_on_subnet, hn, hi]⟩
      · exact ⟨none, by simp [get_uid_for_hotkey_on_subnet, hn]⟩
    · exact ⟨_, rfl⟩
  · rintro (val | m) r2
    · match val with
      | none => exact ⟨_, rfl⟩
      | some v =>
        cases ht : v.truthy
        · exact ⟨0, by simp [get_burn_cost, ht]⟩
        · cases hi : v.pyToInt with
          | error e => exact ⟨burnFallback r2, by simp [get_burn_cost, ht, hi]⟩
          | ok n => exact ⟨n, by simp [get_burn_cost, ht, hi]⟩
    · exact ⟨_, rfl⟩

/-! ### C3 — Checked submission protocol -/

/-- C3: the checked transaction-submission protocol classifies every outcome
into a result pair and never raises: chain success gives `(True, None)`, a
failed receipt gives `(False, decodedError)` (`"Unknown error"` when no error
decodes), and an exception anywhere in compose/sign/submit/inspect gives
`(False, exceptionMessage)`. -/
theorem compose_and_submit_checked_classifies (submit : SubmitOracle)
    (m f : String) (ps : List (String × PyVal)) :
    (∀ rc, submit m f ps = .ok rc → rc.is_success = true →
      compose_and_submit_checked submit m f ps = (true, none)) ∧
    (∀ rc, submit m f ps = .ok rc → rc.is_success = false →
      compose_and_submit_checked submit m f ps =
        (false, some (errorStr rc.error_message))) ∧
    (∀ e, submit m f ps = .exn e →
      compose_and_submit_checked submit m f ps = (false, some e)) := by
  refine ⟨fun rc hok hs => ?_, fun rc hok hs => ?_, fun e hexn => ?_⟩ <;>
    simp [compose_and_submit_checked, compose_and_submit, *]

/-- C3 witness: a concrete successful, failed and raising submission each map
to the documented pair. -/
theorem compose_and_submit_checked_classifies_witness :
    compose_and_submit_checked (fun _ _ _ => .ok ⟨true, none, .ok []⟩) "M" "f" [] =
      (true, none) ∧
    compose_and_submit_checked (fun _ _ _ => .ok ⟨false, some "BadOrigin", .ok []⟩) "M" "f" [] =
      (false, some "BadOrigin") ∧
    compose_and_submit_checked (fun _ _ _ => .exn "connection reset") "M" "f" [] =
      (false, some "connection reset") := by
  refine ⟨(compose_and_submit_checked_classifies _ "M" "f" []).1 _ rfl rfl, ?_,
    (compose_and_submit_checked_classifies _ "M" "f" []).2.2 _ rfl⟩
  have h := (compose_and_submit_checked_classifies
    (fun _ _ _ => .ok ⟨false, some "BadOrigin", .ok []⟩) "M" "f" []).2.1 _ rfl rfl
  simpa [errorStr] using h

/-! ### C8 — Transfer uses the keep-alive call -/

/-- C8: the transfer operation used by the menus converts the TAO amount to
base units with `tao_to_rao` and hands exactly the
`Balances.transfer_keep_alive` call (with `dest` and the converted `value`)
to the checked submission protocol, returning its result pair unchanged;
in particular a raising submission surfaces as `(False, message)`. -/
theorem transfer_submits_keep_alive (submit : SubmitOracle) (dest : String)
    (x : ℚ) (e : String) :
    transfer_tao_keep_alive submit dest x =
      compose_and_submit_checked submit "Balances" "transfer_keep_alive"
        [("dest", .pstr dest), ("value", .pint (tao_to_rao x))] ∧
    transfer_tao_keep_alive (fun _ _ _ => .exn e) dest x = (false, some e) :=
  ⟨rfl, rfl⟩

/-! ### C5 — Per-block emission formula -/

/-- C5 (counterexample to the claim as stated): with a negative decoded moving
price (the I64F64 `bits` field is signed) the code zeroes the emission instead
of computing `toDisplayUnits(E) * movingPrice / T`: at `E = 10^9`, `mp = -1`,
`T = 1` the code yields `0` while the claimed formula yields `-1`. -/
theorem emission_negative_price_differs :
    emission_calc 1000000000 (-1) 1 = 0 ∧
    rao_to_tao 1000000000 * (-1) / ((1 : ℕ) : ℚ) = -1 ∧
    emission_calc 1000000000 (-1) 1 ≠ rao_to_tao 1000000000 * (-1) / ((1 : ℕ) : ℚ) := by
  have h1 : emission_calc 1000000000 (-1) 1 = 0 := by
    simp only [emission_calc]
    norm_num
  have h2 : rao_to_tao 1000000000 * (-1) / ((1 : ℕ) : ℚ) = -1 := by
    simp only [rao_to_tao, RAO_PER_TAO]
    norm_num
  exact ⟨h1, h2, by rw [h1, h2]; norm_num⟩

/-- C5 (amended): for a matched neuron record with emission `E` on a subnet
with nonnegative moving price and tempo `T > 0`, the derived per-block TAO
emission equals `toDisplayUnits(E) * movingPrice / T`; with `T = 0` (and
likewise for any negative moving price) it is `0`, so the division by the
tempo is never performed with a zero divisor. -/
theorem emission_per_block_formula (E : ℕ) (mp : ℚ) (T : ℕ)
    (hT : 0 < T) (hmp : 0 ≤ mp) :
    emission_calc E mp T = rao_to_tao E * mp / (T : ℚ) ∧
    emission_calc E mp 0 = 0 ∧
    (mp < 0 → emission_calc E mp T = 0) := by
  refine ⟨?_, ?_, ?_⟩ <;> simp only [emission_calc]
  · rcases eq_or_lt_of_le hmp with hz | hp
    · subst hz
      rw [if_pos hT, if_neg (lt_irrefl (0 : ℚ)), mul_zero, zero_div]
    · rw [if_pos hp, if_pos hT]
  · rw [if_neg (lt_irrefl 0)]
  · intro hneg
    rw [if_neg (not_lt.mpr hneg.le), if_pos hT, zero_div]

/-- C5 witness: emission `72e9` RAO per tempo, moving price `1`, tempo `360`
satisfy the amended formula. -/
theorem emission_per_block_formula_witness :
    emission_calc 72000000000 1 360 = rao_to_tao 72000000000 * 1 / ((360 : ℕ) : ℚ) ∧
    emission_calc 72000000000 1 0 = 0 ∧
    ((1 : ℚ) < 0 → emission_calc 72000000000 1 360 = 0) :=
  emission_per_block_formula 72000000000 1 360 (by decide) (by decide)

/-! ### C7 — Address decoding and container unwrapping -/

/-- Reduction of `Except` bind on a success value, used to push results
through the monadic embeddings. -/
theorem except_ok_bind {e α β : Type} (x : α) (f : α → Except e β) :
    (Except.ok x >>= f : Except e β) = f x := rfl

/-- A byte list as the corresponding tuple elements. -/
def pintBytes (bs : List ℕ) : List PyVal :=
  bs.map fun b => PyVal.pint (Int.ofNat b)

/-- The unwrap step leaves a tuple alone unless it has exactly one element. -/
theorem unwrapOnce_ptup_ne_one {xs : List PyVal} (h : xs.length ≠ 1) :
    unwrapOnce (.ptup xs) = .ptup xs := by
  match xs with
  | [] => rfl
  | [x] => exact absurd rfl h
  | x :: y :: rest => rfl

/-- A list of byte-sized ints embeds into `bytesOf`. -/
theorem bytesOf_map_pint (bs : List ℕ) (hlt : ∀ b ∈ bs, b < 256) :
    bytesOf (pintBytes bs) = some bs := by
  induction bs with
  | nil => rfl
  | cons b rest ih =>
    have hb : ((0:ℤ) ≤ Int.ofNat b ∧ Int.ofNat b < 256) :=
      ⟨Int.ofNat_nonneg b, Int.ofNat_lt.mpr (hlt b (.head _))⟩
    show bytesOf (PyVal.pint (Int.ofNat b) :: pintBytes rest) = _
    simp only [bytesOf]
    rw [if_pos hb, ih (fun x hx => hlt x (.tail _ hx))]
    simp [Int.toNat_ofNat]

/-- Evaluation of `decode_ss58` on an unwrapped 32-byte tuple. -/
theorem decode_ss58_ptup32 (enc : Option (List ℕ → String)) (xs : List PyVal)
    (hlen : xs.length = 32) (bs : List ℕ) (hb : bytesOf xs = some bs) :
    decode_ss58 enc (.ptup xs) =
      match enc with
      | some e => e bs
      | none => "0x" ++ hexOfBytes bs := by
  have hne : xs.length ≠ 1 := by rw [hlen]; decide
  have hu : unwrapOnce (.ptup xs) = .ptup xs := unwrapOnce_ptup_ne_one hne
  simp only [decode_ss58, hu, wireBytes, hlen, hb, if_pos]

/-- Evaluation of `decode_ss58` on a once-wrapped 32-byte tuple. -/
theorem decode_ss58_wrapped_ptup32 (enc : Option (List ℕ → String)) (xs : List PyVal)
    (hlen : xs.length = 32) (bs : List ℕ) (hb : bytesOf xs = some bs) :
    decode_ss58 enc (.ptup [.ptup xs]) =
      match enc with
      | some e => e bs
      | none => "0x" ++ hexOfBytes bs := by
  have hu : unwrapOnce (.ptup [.ptup xs]) = .ptup xs := rfl
  simp only [decode_ss58, hu, wireBytes, hlen, hb, if_pos]

/-- C7 (counterexample to the claim as stated): the unwrap step of
`decode_ss58` runs once, not twice — on a twice-wrapped 32-byte sequence the
inner single-element container survives, the 32-length test fails, and the
`str()` fallback is returned instead of the encoded address. -/
theorem decode_ss58_double_wrap_differs :
    decode_ss58 none (.ptup [.ptup [.ptup (List.replicate 32 (.pint 0))]]) ≠
      decode_ss58 none (.ptup (List.replicate 32 (.pint 0))) := by
  decide

/-- C7 (amended): on a 32-byte sequence wrapped once in a single-element
container, `decode_ss58` yields the same result as on the unwrapped sequence,
for any encoder environment (the twice-wrapped form instead falls back to the
`str()` form, see the counterexample). -/
theorem decode_ss58_unwraps_single_container (enc : Option (List ℕ → String))
    (bs : List ℕ) (hlen : bs.length = 32) (hlt : ∀ b ∈ bs, b < 256) :
    decode_ss58 enc (.ptup [.ptup (pintBytes bs)]) =
      decode_ss58 enc (.ptup (pintBytes bs)) := by
  have hb := bytesOf_map_pint bs hlt
  have hlen' : (pintBytes bs).length = 32 := by
    rw [pintBytes, List.length_map, hlen]
  rw [decode_ss58_wrapped_ptup32 enc _ hlen' bs hb,
    decode_ss58_ptup32 enc _ hlen' bs hb]

/-- C7 witness: the all-zero 32-byte account id, with no encoder available,
decodes equally with and without one wrapping container. -/
theorem decode_ss58_unwraps_single_container_witness :
    decode_ss58 none (.ptup [.ptup (pintBytes (List.replicate 32 0))]) =
      decode_ss58 none (.ptup (pintBytes (List.replicate 32 0))) :=
  decode_ss58_unwraps_single_container none (List.replicate 32 0) (by decide)
    (by decide)

/-! ### C2 — Burn registration idempotency -/

/-- C2 (counterexample to the claim as stated): the balance pre-check runs
before the already-registered check, so a registered hotkey (UID query yields
`5`) with a balance below the burn cost gets `(False, insufficient, None)`
rather than `(True, existingUid)`. -/
theorem burn_register_balance_check_first :
    check_registration_status (.ok (some (.pint 5))) = some 5 ∧
    burn_register
      ⟨.ok (some (.pint 100)), .exn "unused",
        .ok (.pdict [("data", .pdict [("free", .pint 0)])]),
        .ok (some (.pint 5)), .exn "unused", .ok none⟩ true
      = .ok ((false, some (.insufficient 0 100), none), 0) :=
  ⟨rfl, rfl⟩

/-- C2 (amended): whenever the balance pre-check does not fail first (it is
disabled, or the free balance is at least the burn cost), a hotkey whose
registration query returns an existing UID `u` makes `burn_register` return
success with `u` immediately, composing and submitting no extrinsic at all
(submission count `0`) — so a second call for an already-registered hotkey
again returns `(True, u)` without an extrinsic. -/
theorem burn_register_idempotent_short_circuit (o : BurnOracle) (cb : Bool)
    (u burn bal : ℤ)
    (hburn : get_burn_cost o.burnR1 o.burnR2 = .ok burn)
    (hbal : get_balance o.balanceR = .ok (.pint bal))
    (hge : ¬ bal < burn)
    (hreg : check_registration_status o.uidR = some u) :
    burn_register o cb = .ok ((true, some (.alreadyRegistered u), some u), 0) := by
  have hlt : (decide (bal < burn)) = false := decide_eq_false hge
  cases cb
  · simp [burn_register, hburn, hbal, hreg, pyLtInt, hlt, except_ok_bind,
      pure, Except.pure]
  · simp [burn_register, hburn, hbal, hreg, pyLtInt, hlt, except_ok_bind,
      pure, Except.pure]
    intro h
    exact absurd h hge

/-- C2 witness: burn cost `100`, balance `200`, existing UID `7` — the call
returns `(True, 7)` with zero submissions. -/
theorem burn_register_idempotent_short_circuit_witness :
    burn_register
      ⟨.ok (some (.pint 100)), .exn "unused",
        .ok (.pdict [("data", .pdict [("free", .pint 200)])]),
        .ok (some (.pint 7)), .exn "unused", .ok none⟩ true
      = .ok ((true, some (.alreadyRegistered 7), some 7), 0) :=
  burn_register_idempotent_short_circuit _ true 7 100 200 rfl rfl (by decide) rfl

/-! ### Structural lemmas about the stats row loops -/

/-- The stake loop appends exactly the rows of the passing entries, in order. -/
theorem stake_fold_subnets (ctx : LoopCtx) (es : List StakeEntry) (st : LoopState) :
    (es.foldl (stake_step ctx) st).subnets =
      st.subnets ++ (es.filter (entry_pass ctx)).map (entry_row ctx) := by
  induction es generalizing st with
  | nil => simp
  | cons e rest ih =>
    rw [List.foldl_cons, ih]
    by_cases h : entry_pass ctx e
    · simp [stake_step, h, List.filter_cons]
    · simp [stake_step, h, List.filter_cons]

/-- The stake loop records every entry's `(hotkey, netuid)` pair in
`seen_pairs`, rows appended or not. -/
theorem stake_fold_seen (ctx : LoopCtx) (es : List StakeEntry) (st : LoopState) :
    (es.foldl (stake_step ctx) st).seen = st.seen ++ es.map (entry_pair ctx) := by
  induction es generalizing st with
  | nil => simp
  | cons e rest ih =>
    rw [List.foldl_cons, ih]
    simp [stake_step]

/-- Provenance of rows across the inner synthetic loop: a row either predates
the fold or is a synthetic row of one of this hotkey's cached registrations. -/
theorem synth_fold_subnets_mem (ctx : LoopCtx) (hk : String) (nds : List NeuronData)
    (st : LoopState) (r : SubnetRow)
    (hr : r ∈ (nds.foldl (synth_step ctx hk) st).subnets) :
    r ∈ st.subnets ∨ ∃ nd ∈ nds, r = synth_row ctx hk nd := by
  induction nds generalizing st with
  | nil => exact .inl hr
  | cons nd rest ih =>
    rw [List.foldl_cons] at hr
    rcases ih _ hr with h | ⟨nd', hmem, heq⟩
    · by_cases hs : (hk, nd.netuid) ∈ st.seen
      · left
        simpa [synth_step, hs] using h
      · rw [synth_step, if_neg hs] at h
        rcases List.mem_append.mp h with h' | h'
        · exact .inl h'
        · exact .inr ⟨nd, .head _, (List.mem_singleton.mp h')⟩
    · exact .inr ⟨nd', .tail _ hmem, heq⟩

/-- Provenance of rows across the whole synthetic loop. -/
theorem synth_loop_subnets_mem (ctx : LoopCtx) (hks : List String) (st : LoopState)
    (r : SubnetRow) (hr : r ∈ (synth_loop ctx hks st).subnets) :
    r ∈ st.subnets ∨ ∃ hk nd, nd ∈ alGetS ctx.cache hk [] ∧ r = synth_row ctx hk nd := by
  induction hks generalizing st with
  | nil => exact .inl hr
  | cons hk rest ih =>
    rw [synth_loop, List.foldl_cons] at hr
    rcases ih _ hr with h | ⟨hk', nd, hmem, heq⟩
    · rcases synth_fold_subnets_mem ctx hk _ _ _ h with h' | ⟨nd, hmem, heq⟩
      · exact .inl h'
      · exact .inr ⟨hk, nd, hmem, heq⟩
    · exact .inr ⟨hk', nd, hmem, heq⟩

/-- An empty `find_neuron` scan means no cached record matches the netuid. -/
theorem find_neuron_eq_none {l : List NeuronData} {n : ℕ}
    (h : find_neuron l n = none) : ∀ nd ∈ l, nd.netuid ≠ n := by
  induction l with
  | nil => intro nd hnd; cases hnd
  | cons x rest ih =>
    intro nd hnd
    rw [find_neuron] at h
    by_cases hx : x.netuid = n
    · rw [if_pos hx] at h
      cases h
    · rw [if_neg hx] at h
      rcases List.mem_cons.mp hnd with rfl | h'
      · exact hx
      · exact ih h nd h'

/-- In a list whose images under `f` are pairwise distinct, equal images force
equal elements. -/
theorem pairwise_ne_unique {α β : Type} (f : α → β) {l : List α}
    (hp : l.Pairwise (fun a b => f a ≠ f b)) {x y : α} (hx : x ∈ l) (hy : y ∈ l)
    (hf : f x = f y) : x = y := by
  induction l with
  | nil => cases hx
  | cons a rest ih =>
    rcases List.mem_cons.mp hx with rfl | hx'
    · rcases List.mem_cons.mp hy with rfl | hy'
      · rfl
      · exact absurd hf (List.rel_of_pairwise_cons hp hy')
    · rcases List.mem_cons.mp hy with rfl | hy'
      · exact absurd hf.symm (List.rel_of_pairwise_cons hp hx')
      · exact ih (List.Pairwise.of_cons hp) hx' hy'

/-- A zero alpha stake values to zero whatever the subnet and price. -/
theorem tao_value_calc_zero (n : ℕ) (mp : ℚ) : tao_value_calc n 0 mp = 0 := by
  unfold tao_value_calc
  split_ifs <;> simp

/-- The `(hotkey, netuid)` key of a snapshot row. -/
def row_pair (r : SubnetRow) : String × ℕ := (r.hotkey, r.netuid)

/-- The snapshot's row list, unfolded to the two loops and the final sort. -/
theorem get_wallet_stats_subnets (enc : Option (List ℕ → String)) (ck : String)
    (iu : Bool) (hks : List String) (cache : List (String × List NeuronData))
    (bR : Option ℕ) (sR : Option (List StakeEntry)) (dR : Option (List DynInfo))
    (pR : Option ℚ) :
    (get_wallet_stats enc ck iu hks cache bR sR dR pR).subnets =
      sortRows ((if !cache.isEmpty && !hks.isEmpty
        then synth_loop ⟨enc, cache, stats_maps dR⟩ hks
          ((sR.getD []).foldl (stake_step ⟨enc, cache, stats_maps dR⟩) ⟨[], 0, 0, []⟩)
        else (sR.getD []).foldl (stake_step ⟨enc, cache, stats_maps dR⟩)
          ⟨[], 0, 0, []⟩).subnets) := rfl

/-- Provenance of every row of a snapshot: it is either the row of a passing
stake entry or the synthetic row of a cached registration. -/
theorem get_wallet_stats_subnets_mem (enc : Option (List ℕ → String)) (ck : String)
    (iu : Bool) (hks : List String) (cache : List (String × List NeuronData))
    (bR : Option ℕ) (sR : Option (List StakeEntry)) (dR : Option (List DynInfo))
    (pR : Option ℚ) (r : SubnetRow)
    (hr : r ∈ (get_wallet_stats enc ck iu hks cache bR sR dR pR).subnets) :
    (∃ e ∈ sR.getD [], entry_pass ⟨enc, cache, stats_maps dR⟩ e = true ∧
      r = entry_row ⟨enc, cache, stats_maps dR⟩ e) ∨
    (∃ hk nd, nd ∈ alGetS cache hk [] ∧
      r = synth_row ⟨enc, cache, stats_maps dR⟩ hk nd) := by
  rw [get_wallet_stats_subnets, sortRows, List.mem_insertionSort] at hr
  have hst1 : ∀ r', r' ∈ (((sR.getD []).foldl
      (stake_step ⟨enc, cache, stats_maps dR⟩) ⟨[], 0, 0, []⟩ : LoopState)).subnets →
      ∃ e ∈ sR.getD [], entry_pass ⟨enc, cache, stats_maps dR⟩ e = true ∧
        r' = entry_row ⟨enc, cache, stats_maps dR⟩ e := by
    intro r' hr'
    rw [stake_fold_subnets, List.nil_append] at hr'
    rcases List.mem_map.mp hr' with ⟨e, he, heq⟩
    rcases List.mem_filter.mp he with ⟨hmem, hpass⟩
    exact ⟨e, hmem, hpass, heq.symm⟩
  by_cases hc : (!cache.isEmpty && !hks.isEmpty) = true
  · rw [if_pos hc] at hr
    rcases synth_loop_subnets_mem _ _ _ _ hr with h | ⟨hk, nd, hmem, heq⟩
    · exact .inl (hst1 r h)
    · exact .inr ⟨hk, nd, hmem, heq⟩
  · rw [if_neg hc] at hr
    exact .inl (hst1 r hr)

/-- The invariant carried through the synthetic loop: rows have pairwise
distinct `(hotkey, netuid)` keys, and every row's key is in `seen_pairs`. -/
def RowsInv (st : LoopState) : Prop :=
  st.subnets.Pairwise (fun a b => row_pair a ≠ row_pair b) ∧
  ∀ r ∈ st.subnets, row_pair r ∈ st.seen

theorem synth_step_inv (ctx : LoopCtx) (hk : String) (st : LoopState)
    (nd : NeuronData) (h : RowsInv st) : RowsInv (synth_step ctx hk st nd) := by
  by_cases hs : (hk, nd.netuid) ∈ st.seen
  · simpa [synth_step, hs] using h
  · have hsub : (synth_step ctx hk st nd).subnets =
        st.subnets ++ [synth_row ctx hk nd] := by simp [synth_step, hs]
    have hseen : (synth_step ctx hk st nd).seen =
        st.seen ++ [(hk, nd.netuid)] := by simp [synth_step, hs]
    refine ⟨?_, ?_⟩
    · rw [hsub, List.pairwise_append]
      refine ⟨h.1, by simp, ?_⟩
      intro a ha b hb
      rw [List.mem_singleton] at hb
      subst hb
      intro hEq
      have hpa : row_pair a ∈ st.seen := h.2 a ha
      rw [hEq] at hpa
      exact hs hpa
    · intro r hr
      rw [hsub] at hr
      rw [hseen]
      rcases List.mem_append.mp hr with h' | h'
      · exact List.mem_append_left _ (h.2 r h')
      · rw [List.mem_singleton] at h'
        subst h'
        exact List.mem_append_right _ (List.Mem.head _)

theorem synth_fold_inv (ctx : LoopCtx) (hk : String) (nds : List NeuronData)
    (st : LoopState) (h : RowsInv st) :
    RowsInv (nds.foldl (synth_step ctx hk) st) := by
  induction nds generalizing st with
  | nil => exact h
  | cons nd rest ih =>
    rw [List.foldl_cons]
    exact ih _ (synth_step_inv ctx hk st nd h)

theorem synth_loop_inv (ctx : LoopCtx) (hks : List String) (st : LoopState)
    (h : RowsInv st) : RowsInv (synth_loop ctx hks st) := by
  induction hks generalizing st with
  | nil => exact h
  | cons hk rest ih =>
    rw [synth_loop, List.foldl_cons]
    exact ih _ (synth_fold_inv ctx hk _ _ h)

/-- When the stake entries carry pairwise distinct `(hotkey, netuid)` pairs,
the stake loop's rows do too, and each row's pair is recorded as seen. -/
theorem st1_rows_inv (ctx : LoopCtx) (stakes : List StakeEntry)
    (hdist : stakes.Pairwise (fun e1 e2 => entry_pair ctx e1 ≠ entry_pair ctx e2)) :
    RowsInv (stakes.foldl (stake_step ctx) ⟨[], 0, 0, []⟩) := by
  constructor
  · rw [stake_fold_subnets, List.nil_append, List.pairwise_map]
    exact List.Pairwise.sublist (List.filter_sublist _) hdist
  · intro r hr
    rw [stake_fold_subnets, List.nil_append] at hr
    rw [stake_fold_seen, List.nil_append]
    rcases List.mem_map.mp hr with ⟨e, he, heq⟩
    subst heq
    exact List.mem_map.mpr ⟨e, (List.mem_filter.mp he).1, rfl⟩

/-! ### C6 — Stake valuation rule -/

/-- C6: on the root subnet (netuid `0`) a stake of `S` RAO values to exactly
`toDisplayUnits(S)`, whatever price the price map holds; on any other subnet
the valuation is `toDisplayUnits(S) * movingPrice` when a positive moving
price is known and `0` otherwise; and every row of every snapshot (stake rows
and synthetic zero-stake rows alike) obeys this rule with respect to the run's
price map. -/
theorem root_subnet_valuation (S : ℕ) (mp : ℚ) (n : ℕ) :
    tao_value_calc 0 (rao_to_tao S) mp = rao_to_tao S ∧
    (n ≠ 0 → 0 < mp → tao_value_calc n (rao_to_tao S) mp = rao_to_tao S * mp) ∧
    (n ≠ 0 → ¬ 0 < mp → tao_value_calc n (rao_to_tao S) mp = 0) ∧
    ∀ (enc : Option (List ℕ → String)) (ck : String) (iu : Bool)
      (hks : List String) (cache : List (String × List NeuronData))
      (bR : Option ℕ) (sR : Option (List StakeEntry)) (dR : Option (List DynInfo))
      (pR : Option ℚ),
      ∀ r ∈ (get_wallet_stats enc ck iu hks cache bR sR dR pR).subnets,
        r.tao_value =
          tao_value_calc r.netuid r.alpha_stake
            (alGet (stats_maps dR).price_map r.netuid 0) := by
  refine ⟨rfl, ?_, ?_, ?_⟩
  · intro h1 h2
    unfold tao_value_calc
    rw [if_neg h1, if_pos h2]
  · intro h1 h2
    unfold tao_value_calc
    rw [if_neg h1, if_neg h2]
  · intro enc ck iu hks cache bR sR dR pR r hr
    rcases get_wallet_stats_subnets_mem enc ck iu hks cache bR sR dR pR r hr with
      ⟨e, _he, _hpass, rfl⟩ | ⟨hk, nd, _hnd, rfl⟩
    · rfl
    · exact (tao_value_calc_zero _ _).symm

/-- C6 witness: a single stake entry of `5` RAO on the root subnet produces a
row satisfying the valuation rule. -/
theorem root_subnet_valuation_witness :
    (entry_row ⟨none, [], stats_maps none⟩ ⟨0, .pstr "hk", 5, false⟩) ∈
      (get_wallet_stats none "c" false [] [] none
        (some [⟨0, .pstr "hk", 5, false⟩]) none none).subnets ∧
    (entry_row ⟨none, [], stats_maps none⟩ ⟨0, .pstr "hk", 5, false⟩).tao_value =
      tao_value_calc
        (entry_row ⟨none, [], stats_maps none⟩ ⟨0, .pstr "hk", 5, false⟩).netuid
        (entry_row ⟨none, [], stats_maps none⟩ ⟨0, .pstr "hk", 5, false⟩).alpha_stake
        (alGet (stats_maps none).price_map
          (entry_row ⟨none, [], stats_maps none⟩ ⟨0, .pstr "hk", 5, false⟩).netuid 0) :=
  ⟨List.Mem.head _,
   (root_subnet_valuation 0 0 0).2.2.2 none "c" false [] [] none
     (some [⟨0, .pstr "hk", 5, false⟩]) none none _ (List.Mem.head _)⟩

/-! ### C9 — Snapshot totals consistency -/

/-- C9 (counterexample to the claim as stated): a fetched price that is not
positive (reachable through the unchecked CoinGecko fallback of
`fetch_tao_price`) is still multiplied through — `total_value_usd` is not
`None` although no positive price was fetched. -/
theorem fetched_negative_price_multiplied :
    fetch_tao_price none (some (some (-1))) = some (-1) ∧
    (get_wallet_stats none "addr" true [] [] (some 1000000000) (some []) none
        (some (-1))).total_value_usd =
      some ((get_wallet_stats none "addr" true [] [] (some 1000000000) (some [])
        none (some (-1))).total_value_tao * (-1)) ∧
    (get_wallet_stats none "addr" true [] [] (some 1000000000) (some []) none
        (some (-1))).total_value_usd ≠ none := by
  have hne : ((-1 : ℚ)) ≠ 0 := by norm_num
  refine ⟨rfl, ?_, ?_⟩
  · simp [get_wallet_stats, hne]
  · simp [get_wallet_stats, hne]

/-- C9 (amended): every snapshot satisfies
`total_value_tao = free_balance_tao + total_staked_tao` exactly, and
`total_value_usd` equals `total_value_tao * price` whenever a nonzero USD
price was fetched (positive in practice, but the sign is not checked), and is
`None` — never `0` — when the price task was skipped, raised, or produced no
usable (zero/absent) price. -/
theorem snapshot_totals_consistent (enc : Option (List ℕ → String)) (ck : String)
    (iu : Bool) (hks : List String) (cache : List (String × List NeuronData))
    (bR : Option ℕ) (sR : Option (List StakeEntry)) (dR : Option (List DynInfo))
    (pR : Option ℚ) :
    (get_wallet_stats enc ck iu hks cache bR sR dR pR).total_value_tao =
      (get_wallet_stats enc ck iu hks cache bR sR dR pR).free_balance_tao +
        (get_wallet_stats enc ck iu hks cache bR sR dR pR).total_staked_tao ∧
    (∀ p : ℚ, iu = true → pR = some p → p ≠ 0 →
      (get_wallet_stats enc ck iu hks cache bR sR dR pR).total_value_usd =
        some ((get_wallet_stats enc ck iu hks cache bR sR dR pR).total_value_tao * p)) ∧
    ((iu = false ∨ pR = none ∨ pR = some 0) →
      (get_wallet_stats enc ck iu hks cache bR sR dR pR).total_value_usd = none) := by
  refine ⟨rfl, ?_, ?_⟩
  · intro p hiu hp hne
    subst hiu
    subst hp
    simp [get_wallet_stats, hne]
  · rintro (hiu | hp | hp)
    · subst hiu
      simp [get_wallet_stats]
    · subst hp
      cases iu <;> simp [get_wallet_stats]
    · subst hp
      cases iu <;> simp [get_wallet_stats]

/-- C9 witness: with balance `1e9` RAO, no stakes and a fetched price of `2`,
the USD total is the TAO total times `2`; with the price task skipped it is
`None`. -/
theorem snapshot_totals_consistent_witness :
    (get_wallet_stats none "c" true [] [] (some 1000000000) (some []) none
        (some 2)).total_value_usd =
      some ((get_wallet_stats none "c" true [] [] (some 1000000000) (some [])
        none (some 2)).total_value_tao * 2) ∧
    (get_wallet_stats none "c" false [] [] none (some []) none
        none).total_value_usd = none :=
  ⟨(snapshot_totals_consistent none "c" true [] [] (some 1000000000) (some [])
      none (some 2)).2.1 2 rfl rfl (by decide),
   (snapshot_totals_consistent none "c" false [] [] none (some []) none
      none).2.2 (.inl rfl)⟩

/-! ### C10 — Row-list shape invariants -/

/-- C10 (counterexample to the claim as stated): the stake loop performs no
deduplication of its own, so a stake list carrying the same `(hotkey, netuid)`
pair twice produces two rows with the same pair — "at most one row per pair"
only holds against pairwise-distinct stake entries. -/
theorem duplicate_stake_entries_duplicate_rows :
    ¬ ((get_wallet_stats none "c" false [] [] none
        (some [⟨3, .pstr "hk", 5, false⟩, ⟨3, .pstr "hk", 5, false⟩]) none
        none).subnets.Pairwise
      (fun a b => row_pair a ≠ row_pair b)) := by
  intro h
  have h1 : (entry_row ⟨none, [], stats_maps none⟩ ⟨3, .pstr "hk", 5, false⟩) ∈
      (get_wallet_stats none "c" false [] [] none
        (some [⟨3, .pstr "hk", 5, false⟩, ⟨3, .pstr "hk", 5, false⟩]) none
        none).subnets := List.Mem.head _
  have h2 := List.rel_of_pairwise_cons h (List.Mem.head _)
  exact h2 rfl

/-- C10 (amended): in every snapshot the row list is sorted ascending by
netuid; provided the stake list has pairwise distinct `(hotkey, netuid)` pairs
(as one chain response per coldkey does), the rows carry pairwise distinct
`(hotkey, netuid)` pairs — in particular the synthetic zero-stake rows never
duplicate a pair already produced from the stake list; and a stake entry with
zero stake, no registration-cache hit and an unset `is_registered` flag
contributes no row with its pair at all. -/
theorem subnet_rows_sorted_unique (enc : Option (List ℕ → String)) (ck : String)
    (iu : Bool) (hks : List String) (cache : List (String × List NeuronData))
    (bR : Option ℕ) (sR : Option (List StakeEntry)) (dR : Option (List DynInfo))
    (pR : Option ℚ) :
    List.Sorted rowLE (get_wallet_stats enc ck iu hks cache bR sR dR pR).subnets ∧
    ((sR.getD []).Pairwise (fun e1 e2 =>
        entry_pair ⟨enc, cache, stats_maps dR⟩ e1 ≠
          entry_pair ⟨enc, cache, stats_maps dR⟩ e2) →
      (get_wallet_stats enc ck iu hks cache bR sR dR pR).subnets.Pairwise
        (fun a b => row_pair a ≠ row_pair b)) ∧
    (∀ e, e ∈ sR.getD [] → e.stake = 0 →
      entry_neuron ⟨enc, cache, stats_maps dR⟩ e = none →
      e.is_registered = false →
      (sR.getD []).Pairwise (fun e1 e2 =>
        entry_pair ⟨enc, cache, stats_maps dR⟩ e1 ≠
          entry_pair ⟨enc, cache, stats_maps dR⟩ e2) →
      ∀ r ∈ (get_wallet_stats enc ck iu hks cache bR sR dR pR).subnets,
        row_pair r ≠ entry_pair ⟨enc, cache, stats_maps dR⟩ e) := by
  refine ⟨?_, ?_, ?_⟩
  · rw [get_wallet_stats_subnets, sortRows]
    exact List.sorted_insertionSort rowLE _
  · intro hdist
    have hinv : RowsInv (if !cache.isEmpty && !hks.isEmpty then
        synth_loop ⟨enc, cache, stats_maps dR⟩ hks
          ((sR.getD []).foldl (stake_step ⟨enc, cache, stats_maps dR⟩) ⟨[], 0, 0, []⟩)
        else (sR.getD []).foldl (stake_step ⟨enc, cache, stats_maps dR⟩)
          ⟨[], 0, 0, []⟩) := by
      by_cases hc : (!cache.isEmpty && !hks.isEmpty) = true
      · rw [if_pos hc]
        exact synth_loop_inv _ _ _ (st1_rows_inv _ _ hdist)
      · rw [if_neg hc]
        exact st1_rows_inv _ _ hdist
    rw [get_wallet_stats_subnets, sortRows]
    exact ((List.perm_insertionSort rowLE _).pairwise_iff
      (fun h => Ne.symm h)).mpr hinv.1
  · intro e hmem hstake hneuron hflag hdist r hr h
    rcases get_wallet_stats_subnets_mem enc ck iu hks cache bR sR dR pR r hr with
      ⟨e', he', hpass, rfl⟩ | ⟨hk, nd, hnd, rfl⟩
    · have hee : e' = e :=
        pairwise_ne_unique (entry_pair ⟨enc, cache, stats_maps dR⟩) hdist he' hmem h
      subst hee
      have hfalse : entry_pass ⟨enc, cache, stats_maps dR⟩ e' = false := by
        simp [entry_pass, entry_is_registered, hneuron, hstake, hflag]
      rw [hfalse] at hpass
      cases hpass
    · have hhk : hk = entry_hotkey ⟨enc, cache, stats_maps dR⟩ e :=
        congrArg Prod.fst h
      have hn : nd.netuid = e.netuid := congrArg Prod.snd h
      by_cases hce : cache.isEmpty = true
      · rw [List.isEmpty_iff] at hce
        subst hce
        simp [alGetS] at hnd
      · rw [entry_neuron, if_neg hce] at hneuron
        subst hhk
        exact find_neuron_eq_none hneuron nd hnd hn

/-- C10 witness: a zero-stake unregistered entry with no cache hit yields an
empty (hence sorted, pair-distinct) row list with no row for its pair. -/
theorem subnet_rows_sorted_unique_witness :
    List.Sorted rowLE (get_wallet_stats none "c" false [] [] none
      (some [⟨7, .pstr "h", 0, false⟩]) none none).subnets ∧
    (get_wallet_stats none "c" false [] [] none
      (some [⟨7, .pstr "h", 0, false⟩]) none none).subnets.Pairwise
      (fun a b => row_pair a ≠ row_pair b) ∧
    ∀ r ∈ (get_wallet_stats none "c" false [] [] none
      (some [⟨7, .pstr "h", 0, false⟩]) none none).subnets,
      row_pair r ≠ entry_pair ⟨none, [], stats_maps none⟩ ⟨7, .pstr "h", 0, false⟩ :=
  ⟨(subnet_rows_sorted_unique none "c" false [] [] none
      (some [⟨7, .pstr "h", 0, false⟩]) none none).1,
   (subnet_rows_sorted_unique none "c" false [] [] none
      (some [⟨7, .pstr "h", 0, false⟩]) none none).2.1 (by simp),
   (subnet_rows_sorted_unique none "c" false [] [] none
      (some [⟨7, .pstr "h", 0, false⟩]) none none).2.2 _ (List.Mem.head _) rfl rfl
      rfl (by simp)⟩
